import Mathlib

/-!
Verification of the node-cache repository (MakerXStudio/node-cache).

The repository implements a cache-aside layer with two interchangeable
backends: `S3ObjectCache` (src/s3ObjectCache.ts) and `FileSystemObjectCache`
(src/fileSystemObjectCache.ts).  The file src/cache.ts declares the shared
interfaces and also contains an older monolithic copy of both classes.

The shallow embedding below models:
  - JSON values (`Json`) with JavaScript truthiness,
  - cached payloads (`Content`): the bytes a backend stores, where a payload
    written as JSON text is represented symbolically by the value it encodes
    (JSON.stringify is injective and JSON.parse is its inverse on that image;
    gzip/gunzip cancel on every path and are elided),
  - the S3 bucket and the cache directory as association lists from the
    physical storage identifier to the stored entry,
  - wall-clock time as an explicit `now` parameter in milliseconds,
  - the possibility of a non-not-found storage read fault during lookup as an
    explicit `fault` flag (the promise rejection that `.catch` intercepts),
  - the producer (`generator`) as a function `Option Val → Except String Val`;
    `Except.error` is a rejected promise carrying the error message.

Each `getAndCache` run returns the call result, the final backend state, and
an instrumentation flag recording whether the generator was invoked.
-/

set_option autoImplicit false

/-- A JSON value, the domain of structured cache data. -/
inductive Json where
  | null
  | bool (b : Bool)
  | num (n : Int)
  | str (s : String)
  | arr (elems : List Json)
  | obj (fields : List (String × Json))

/-- JavaScript truthiness of a JSON value: `null`, `false`, `0` and the empty
string are falsy; arrays and objects are always truthy.  (`NaN` is not
representable in JSON.) -/
def Json.truthy : Json → Bool
  | .null => false
  | .bool b => b
  | .num n => n != 0
  | .str s => s != ""
  | .arr _ => true
  | .obj _ => true

mutual

/-- A canonical JSON serialization.  The source writes
`JSON.stringify(data, null, 2)`; only injectivity of the encoding and the
round-trip with `JSON.parse` matter to any claim, so whitespace and string
escaping are not reproduced. -/
def Json.stringify : Json → String
  | .null => "null"
  | .bool true => "true"
  | .bool false => "false"
  | .num n => toString n
  | .str s => "\"" ++ s ++ "\""
  | .arr elems => "[" ++ Json.stringifyList elems ++ "]"
  | .obj fields => "\x7b" ++ Json.stringifyFields fields ++ "\x7d"

/-- Serialize the elements of a JSON array, comma separated. -/
def Json.stringifyList : List Json → String
  | [] => ""
  | [v] => Json.stringify v
  | v :: rest => Json.stringify v ++ "," ++ Json.stringifyList rest

/-- Serialize the members of a JSON object, comma separated. -/
def Json.stringifyFields : List (String × Json) → String
  | [] => ""
  | [(k, v)] => "\"" ++ k ++ "\":" ++ Json.stringify v
  | (k, v) :: rest => "\"" ++ k ++ "\":" ++ Json.stringify v ++ "," ++ Json.stringifyFields rest

end

/-- The bytes of a string, as Unicode code points (ASCII agrees with UTF-8 on
every string the model builds). -/
def strBytes (s : String) : List Nat :=
  s.data.map (fun c => c.toNat)

/-- A stored payload.  `binC` is a raw byte sequence; `jsonC v` stands for the
byte sequence `JSON.stringify(v, null, 2)` (kept symbolic because the encoding
is injective and `JSON.parse` inverts it). -/
inductive Content where
  | jsonC (v : Json)
  | binC (b : List Nat)

/-- The raw bytes of a payload, as a binary read (`gunzip` / `readFile` with a
null encoding) produces them. -/
def Content.toBytes : Content → List Nat
  | .binC b => b
  | .jsonC v => strBytes (Json.stringify v)

/-- A cache value as the orchestration code sees it: either a structured
(JSON) value or a binary byte sequence (a `Uint8Array` / `Buffer`). -/
inductive Val where
  | jsonV (v : Json)
  | binV (b : List Nat)

/-- JavaScript truthiness of a decoded cache value.  A `Buffer` is an object
and is truthy even when empty. -/
def Val.truthy : Val → Bool
  | .jsonV v => v.truthy
  | .binV _ => true

/-- The bytes of a value when it is used as binary data.  A structured value
reaching a binary sink (unreachable under a well-typed caller, since the
TypeScript generic `T` fixes the representation) contributes its serialized
bytes. -/
def Val.toBytes : Val → List Nat
  | .binV b => b
  | .jsonV v => strBytes (Json.stringify v)

/-- What `getAndCache` resolves with: either a plain value, or the
`BinaryWithMetadata` envelope with data, mime type and file-extension hint
(`mime.getExtension` can return null, hence the `Option`). -/
inductive RetVal where
  | plain (v : Val)
  | withMeta (data : List Nat) (mimeType : String) (fileExtension : Option String)

/-- `CacheOptions` from src/cache.ts with the documented defaults:
`staleAfterSeconds` absent = cache forever, `returnStaleResultOnError`
defaults to false, `isBinary` defaults to false (JSON), `mimeType` absent
means inferred, `rbMeta` models the internal `_returnBinaryMetadata` flag. -/
structure CacheOptions where
  staleAfterSeconds : Option Nat := none
  returnStaleResultOnError : Bool := false
  isBinary : Bool := false
  mimeType : Option String := none
  rbMeta : Bool := false

/-- Modelled from the spec: the `mime` package's media-type registry
(`mime.getExtension`), an external dependency whose sources are not part of
this repository.  Per the spec the resolution is table-driven and
deterministic — it is a pure function of the media type — and
`application/octet-stream` yields no extension (null), not a guessed one.
Only the media types exercised by the development are tabulated. -/
def mimeGetExtension : String → Option String
  | "application/json" => some ("json")
  | "text/plain" => some ("txt")
  | "image/png" => some ("png")
  | "application/octet-stream" => none
  | _ => none

/-- The final extension of a path: the part after the last dot, if any. -/
def extOf (p : String) : Option String :=
  match (p.splitOn (".")).reverse with
  | [] => none
  | [_] => none
  | e :: _ => some e

/-- Modelled from the spec: `mime.getType`, mapping a file path to the media
type registered for its extension (the same table as `mimeGetExtension`,
consulted in the other direction). -/
def mimeGetTypeOfPath (p : String) : Option String :=
  match extOf p with
  | some ("json") => some ("application/json")
  | some ("txt") => some ("text/plain")
  | some ("png") => some ("image/png")
  | _ => none

/-- The staleness test shared by both split-file implementations
(src/s3ObjectCache.ts line 96, src/fileSystemObjectCache.ts line 64):
`staleAfterSeconds !== undefined && (now - lastModified) / 1000 >
staleAfterSeconds`, with time in milliseconds, so the real-number comparison
is exactly `now > lastModified + 1000 * s`. -/
def staleExpired (staleAfterSeconds : Option Nat) (lastModified now : Nat) : Bool :=
  match staleAfterSeconds with
  | none => false
  | some s => decide (now > lastModified + 1000 * s)

/-- The staleness test of the older monolithic copy in src/cache.ts
(lines 130 and 265): `staleAfterSeconds && ...` — the option value itself is
tested for truthiness, so `staleAfterSeconds = 0` is falsy and the entry is
never considered expired. -/
def staleExpiredLegacy (staleAfterSeconds : Option Nat) (lastModified now : Nat) : Bool :=
  match staleAfterSeconds with
  | none => false
  | some s => decide (s ≠ 0) && decide (now > lastModified + 1000 * s)

/-- `path.join` of the optional key prefix / directory with a file name, for
plain segment names. -/
def joinPfx : Option String → String → String
  | none, f => f
  | some p, f => p ++ ("/") ++ f


/-! ## The S3 backend (src/s3ObjectCache.ts) -/

/-- An object stored in the bucket: the payload, its `ContentType`, and the
`LastModified` instant the backend stamps at write time (milliseconds). -/
structure S3Entry where
  body : Content
  contentType : String
  lastModified : Nat

/-- The bucket: an association from full object key to entry. -/
abbrev S3Store := List (String × S3Entry)

/-- `GetObject`: the first entry under the key, if any. -/
def s3Lookup (store : S3Store) (k : String) : Option S3Entry :=
  (store.find? (fun e => e.1 == k)).map (fun e => e.2)

/-- `DeleteObject`: drop every entry under the key. -/
def s3Delete (store : S3Store) (k : String) : S3Store :=
  store.filter (fun e => !(e.1 == k))

/-- `PutObject`: overwrite the key with the new entry. -/
def s3Write (store : S3Store) (k : String) (entry : S3Entry) : S3Store :=
  (k, entry) :: s3Delete store k

/-- The physical object key used by `getAndCache`
(src/s3ObjectCache.ts line 87): binary values live under `key.gz`, structured
values under `key.json.gz`. -/
def s3FileName (isBinary : Bool) (cacheKey : String) : String :=
  if isBinary then cacheKey ++ (".gz") else cacheKey ++ (".json.gz")

/-- `S3ObjectCache.put` (src/s3ObjectCache.ts lines 59-74): the file name is
chosen by `data instanceof Uint8Array`, the content type defaults per
representation, the payload is gzipped bytes or gzipped
`JSON.stringify(data, null, 2)`, and `LastModified` is stamped by S3 at write
time (`now`). -/
def s3Put (now : Nat) (store : S3Store) (pfx : Option String) (cacheKey : String)
    (data : Val) (mimeType : Option String) : S3Store :=
  s3Write store
    (joinPfx pfx (match data with
      | .binV _ => cacheKey ++ (".gz")
      | .jsonV _ => cacheKey ++ (".json.gz")))
    ⟨(match data with
       | .binV b => Content.binC b
       | .jsonV v => Content.jsonC v),
     (match mimeType with
      | some m => m
      | none => match data with
        | .binV _ => "application/octet-stream"
        | .jsonV _ => "application/json"),
     now⟩

/-- The outcome of one `getAndCache` call: the settled promise, the final
bucket state, and whether the generator was invoked. -/
structure S3Run where
  result : Except String RetVal
  store : S3Store
  genCalled : Bool

/-- The return conversion of `getAndCache` (src/s3ObjectCache.ts lines
138-146): when `isBinary && _returnBinaryMetadata`, wrap the value as a
`BinaryWithMetadata` with `fileExtension` derived from the resolved media
type; otherwise return the value itself. -/
def s3Finish (isBinary rbMeta : Bool) (mimeType : String) (v : Val) : Except String RetVal :=
  if isBinary && rbMeta then
    Except.ok (RetVal.withMeta v.toBytes mimeType (mimeGetExtension mimeType))
  else
    Except.ok (RetVal.plain v)

/-- Media-type resolution of `S3ObjectCache.getAndCache`
(src/s3ObjectCache.ts lines 99-101): an explicit `options.mimeType` wins,
else `existingCache?.ContentType ?? 'application/octet-stream'` — the
fallback is `application/octet-stream` regardless of the representation. -/
def s3ResolveMime (mT : Option String) (existingCache : Option S3Entry) : String :=
  match mT with
  | some m => m
  | none => match existingCache with
    | some e => e.contentType
    | none => "application/octet-stream"

/-- The `expired` computation of the split file (src/s3ObjectCache.ts lines
96-97): defined only when an entry exists. -/
def s3ExpiredOf (sas : Option Nat) (existingCache : Option S3Entry) (now : Nat) : Bool :=
  match existingCache with
  | some e => staleExpired sas e.lastModified now
  | none => false

/-- The `expired` computation of the monolithic copy (src/cache.ts line 130),
which tests `staleAfterSeconds` for truthiness. -/
def s3ExpiredOfLegacy (sas : Option Nat) (existingCache : Option S3Entry) (now : Nat) : Bool :=
  match existingCache with
  | some e => staleExpiredLegacy sas e.lastModified now
  | none => false

/-- Decoding the existing entry (src/s3ObjectCache.ts lines 102-103): a binary
read passes the gunzipped bytes through; a structured read applies
`JSON.parse` to the gunzipped text — which succeeds exactly on payloads that
are serialized JSON, and rejects (before the try block, so fatally) on raw
binary payloads. -/
def s3DecodeExisting (isBinary : Bool) : Option S3Entry → Except String (Option Val)
  | none => Except.ok none
  | some e =>
    if isBinary then Except.ok (some (Val.binV e.body.toBytes))
    else match e.body with
      | Content.jsonC v => Except.ok (some (Val.jsonV v))
      | Content.binC _ => Except.error ("Unexpected token in JSON")

/-- The body of `S3ObjectCache.getAndCache` after the lookup
(src/s3ObjectCache.ts lines 102-146), parameterized by the lookup outcome
`existingCache` and the already-computed `expired` flag (the single line on
which the split file and the monolithic copy differ).  The regeneration
guard is `!existing || expired`, where `existing` is the decoded value,
tested for JavaScript truthiness; the catch block returns the stale value
only when the raw entry existed and `returnStaleResultOnError` is set, and
otherwise rethrows. -/
def s3Body (pfx : Option String) (now : Nat) (store : S3Store) (cacheKey : String)
    (gen : Option Val → Except String Val) (opts : CacheOptions)
    (existingCache : Option S3Entry) (expired : Bool) : S3Run :=
  match s3DecodeExisting opts.isBinary existingCache with
  | Except.error e => ⟨Except.error e, store, false⟩
  | Except.ok none =>
    (match gen none with
     | Except.ok v =>
       ⟨s3Finish opts.isBinary opts.rbMeta (s3ResolveMime opts.mimeType existingCache) v,
        s3Put now store pfx cacheKey v (some (s3ResolveMime opts.mimeType existingCache)), true⟩
     | Except.error e => ⟨Except.error e, store, true⟩)
  | Except.ok (some ev) =>
    if !(Val.truthy ev) || expired then
      match gen (some ev) with
      | Except.ok v =>
        ⟨s3Finish opts.isBinary opts.rbMeta (s3ResolveMime opts.mimeType existingCache) v,
         s3Put now store pfx cacheKey v (some (s3ResolveMime opts.mimeType existingCache)), true⟩
      | Except.error e =>
        if opts.returnStaleResultOnError then
          ⟨s3Finish opts.isBinary opts.rbMeta (s3ResolveMime opts.mimeType existingCache) ev,
           store, true⟩
        else ⟨Except.error e, store, true⟩
    else
      ⟨s3Finish opts.isBinary opts.rbMeta (s3ResolveMime opts.mimeType existingCache) ev,
       store, false⟩

/-- `S3ObjectCache.getAndCache` (src/s3ObjectCache.ts lines 82-147).
`fault` injects a non-not-found failure of the `GetObject` call; the source
maps every lookup failure — not-found or otherwise — to `undefined` via
`.catch(() => undefined)`. -/
def s3GetAndCache (pfx : Option String) (now : Nat) (fault : Bool) (store : S3Store)
    (cacheKey : String) (gen : Option Val → Except String Val) (opts : CacheOptions) : S3Run :=
  s3Body pfx now store cacheKey gen opts
    (if fault then none
     else s3Lookup store (joinPfx pfx (s3FileName opts.isBinary cacheKey)))
    (s3ExpiredOf opts.staleAfterSeconds
      (if fault then none
       else s3Lookup store (joinPfx pfx (s3FileName opts.isBinary cacheKey))) now)

/-- The older monolithic `S3ObjectCache.getAndCache` kept in src/cache.ts
(lines 116-180): identical to the split file except for the staleness test on
line 130 (`staleExpiredLegacy` in place of `staleExpired`). -/
def s3GetAndCacheLegacy (pfx : Option String) (now : Nat) (fault : Bool) (store : S3Store)
    (cacheKey : String) (gen : Option Val → Except String Val) (opts : CacheOptions) : S3Run :=
  s3Body pfx now store cacheKey gen opts
    (if fault then none
     else s3Lookup store (joinPfx pfx (s3FileName opts.isBinary cacheKey)))
    (s3ExpiredOfLegacy opts.staleAfterSeconds
      (if fault then none
       else s3Lookup store (joinPfx pfx (s3FileName opts.isBinary cacheKey))) now)

/-- `S3ObjectCache.putBinary` (src/s3ObjectCache.ts lines 170-172, and the
`FileSystemObjectCache.putBinary` copy in src/cache.ts lines 343-345):
`return this.putBinary(cacheKey, data, mimeType)` — the method calls itself
with the same arguments.  The fuel counts call depth; `none` means the call
has not returned within that depth (the real call never returns: it
overflows the stack without ever touching the backend). -/
def s3PutBinary (fuel : Nat) (cacheKey : String) (data : List Nat)
    (mimeType : Option String) : Option Unit :=
  match fuel with
  | 0 => none
  | fuel + 1 => s3PutBinary fuel cacheKey data mimeType

/-- One `deleteFile` step of `clearCache` (src/s3ObjectCache.ts lines 30-48):
`HeadObject` first, `DeleteObject` only when the object exists, so deleting a
missing object is a no-op rather than an error. -/
def s3DeleteFile (store : S3Store) (k : String) : S3Store :=
  if (s3Lookup store k).isSome then s3Delete store k else store

/-- The outcome of one `clearCache` call.  The source (src/s3ObjectCache.ts
lines 50-51) invokes `deleteFile` twice WITHOUT awaiting and drops both
promises: the call's own promise resolves immediately — before either
`HeadObject` or `DeleteObject` has been issued — while the dropped promises
complete later.  `storeAtResolve` is the bucket as observable at the instant
the `clearCache` promise settles; `storeEventual` is the bucket once both
dropped deletions have run to completion. -/
structure S3ClearRun where
  storeAtResolve : S3Store
  storeEventual : S3Store

/-- `S3ObjectCache.clearCache` (src/s3ObjectCache.ts lines 29-52): fire two
un-awaited `deleteFile` calls, for the binary-suffix object `key.gz` and the
structured-suffix object `key.json.gz` (each prefixed when a key prefix is
configured).  Because neither promise is awaited, the state observable when
the call settles is the untouched input bucket; the conditional deletions
land only in the eventual state. -/
def s3ClearCache (pfx : Option String) (store : S3Store) (cacheKey : String) : S3ClearRun :=
  ⟨store,
   s3DeleteFile (s3DeleteFile store (joinPfx pfx (cacheKey ++ (".gz"))))
     (joinPfx pfx (cacheKey ++ (".json.gz")))⟩

/-! ## The filesystem backend (src/fileSystemObjectCache.ts) -/

/-- A cached file: its payload and its modification time (milliseconds). -/
structure FSFile where
  content : Content
  mtime : Nat

/-- The cache directory: an association from file path to file. -/
abbrev FSStore := List (String × FSFile)

/-- The file at a path, if it exists. -/
def fsLookup (store : FSStore) (p : String) : Option FSFile :=
  (store.find? (fun e => e.1 == p)).map (fun e => e.2)

/-- Remove a path from the directory. -/
def fsDelete (store : FSStore) (p : String) : FSStore :=
  store.filter (fun e => !(e.1 == p))

/-- `fs.writeFile`: overwrite the path with new content, stamping `mtime`. -/
def fsWrite (store : FSStore) (p : String) (f : FSFile) : FSStore :=
  (p, f) :: fsDelete store p

/-- `FileSystemObjectCache.put` (src/fileSystemObjectCache.ts lines 30-35):
binary data is written to `dir/key`, structured data is written as
`JSON.stringify(data, null, 2)` to `dir/key.json`. -/
def fsPut (now : Nat) (dir : String) (store : FSStore) (cacheKey : String) (data : Val) : FSStore :=
  fsWrite store
    (dir ++ ("/") ++ (match data with
      | Val.binV _ => cacheKey
      | Val.jsonV _ => cacheKey ++ (".json")))
    ⟨(match data with
       | Val.binV b => Content.binC b
       | Val.jsonV v => Content.jsonC v), now⟩

/-- `FileSystemObjectCache.putBinary` (src/fileSystemObjectCache.ts lines
143-145): delegates to `put`, which dispatches on `instanceof Uint8Array`. -/
def fsPutBinary (now : Nat) (dir : String) (store : FSStore) (cacheKey : String)
    (data : List Nat) : FSStore :=
  fsPut now dir store cacheKey (Val.binV data)

/-- Media-type resolution of `FileSystemObjectCache.getAndCache`
(src/fileSystemObjectCache.ts lines 46-57): an explicit `mimeType` wins;
otherwise, for binary data, glob for `dir/key.*` and map the first match's
extension through the registry, defaulting to `application/octet-stream`;
otherwise `application/json`. -/
def fsResolveMime (dir : String) (store : FSStore) (cacheKey : String)
    (isBinary : Bool) (mT : Option String) : String :=
  match mT with
  | some m => m
  | none =>
    if isBinary then
      match store.filter (fun e => e.1.startsWith (dir ++ ("/") ++ cacheKey ++ ("."))) with
      | [] => "application/octet-stream"
      | f :: _ =>
        match mimeGetTypeOfPath f.1 with
        | some t => t
        | none => "application/octet-stream"
    else "application/json"

/-- The physical path `getAndCache` reads and stats
(src/fileSystemObjectCache.ts lines 59-62): the bare key for
`application/octet-stream`, otherwise `key.{extension}` — where a media type
with no registered extension interpolates JavaScript `null` into the template
literal, yielding the literal path `key.null`. -/
def fsCachePath (dir cacheKey mimeType : String) : String :=
  dir ++ ("/") ++ (if mimeType == "application/octet-stream" then cacheKey
    else cacheKey ++ (".") ++ (match mimeGetExtension mimeType with
      | some e => e
      | none => "null"))

/-- The `expired` computation (src/fileSystemObjectCache.ts lines 64-67),
defined only when the stat succeeded. -/
def fsExpiredOf (sas : Option Nat) (statRes : Option FSFile) (now : Nat) : Bool :=
  match statRes with
  | some f => staleExpired sas f.mtime now
  | none => false

/-- Decoding the existing file inside the try block
(src/fileSystemObjectCache.ts lines 76-81): a binary read yields a `Buffer`
(always truthy, even empty); a structured read yields the file text, which is
falsy when the file is empty (then `existing` stays `undefined`), parses when
it is serialized JSON, and otherwise makes `JSON.parse` throw — an error the
surrounding catch block receives. -/
def fsDecodeExisting (isBinary : Bool) : Option Content → Except String (Option Val)
  | none => Except.ok none
  | some c =>
    if isBinary then Except.ok (some (Val.binV c.toBytes))
    else match c with
      | Content.jsonC v => Except.ok (some (Val.jsonV v))
      | Content.binC [] => Except.ok none
      | Content.binC _ => Except.error ("Unexpected token in JSON")

/-- The outcome of one filesystem `getAndCache` call: the settled promise,
the final directory state, whether the generator was invoked, and (as
instrumentation) the resolved `cachePath` the call read from. -/
structure FSRun where
  result : Except String RetVal
  store : FSStore
  genCalled : Bool
  cachePath : String

/-- The read-back section closing `FileSystemObjectCache.getAndCache`
(src/fileSystemObjectCache.ts lines 106-120): re-read the file at
`cachePath` from disk; binary content is returned as bytes or wrapped as a
`BinaryWithMetadata`; structured content is `JSON.parse`d.  A missing file
rejects with `ENOENT`; unparsable structured content rejects from
`JSON.parse`. -/
def fsFinal (st : FSStore) (cachePath mimeType : String) (isBinary rbMeta called : Bool) : FSRun :=
  if isBinary then
    match fsLookup st cachePath with
    | none => ⟨Except.error ("ENOENT"), st, called, cachePath⟩
    | some f =>
      if rbMeta then
        ⟨Except.ok (RetVal.withMeta f.content.toBytes mimeType (mimeGetExtension mimeType)),
         st, called, cachePath⟩
      else ⟨Except.ok (RetVal.plain (Val.binV f.content.toBytes)), st, called, cachePath⟩
  else
    match fsLookup st cachePath with
    | none => ⟨Except.error ("ENOENT"), st, called, cachePath⟩
    | some f =>
      match f.content with
      | Content.jsonC v => ⟨Except.ok (RetVal.plain (Val.jsonV v)), st, called, cachePath⟩
      | Content.binC _ => ⟨Except.error ("Unexpected token in JSON"), st, called, cachePath⟩

/-- The body of `FileSystemObjectCache.getAndCache` after the stat
(src/fileSystemObjectCache.ts lines 64-120), parameterized by the resolved
media type and path and by the stat outcome `statRes`.  The regeneration
guard is `!existingCache || expired` on the stat result; the try block reads
and decodes the existing file, invokes the generator, and persists its
result via `put`; the catch block falls through to the read-back (returning
the stale file) when a stat result exists and `returnStaleResultOnError` is
set, and otherwise rethrows; every non-throwing path ends in the read-back
(`fsFinal`). -/
def fsBody (dir : String) (now : Nat) (store : FSStore) (cacheKey : String)
    (gen : Option Val → Except String Val) (opts : CacheOptions)
    (mimeType cachePath : String) (statRes : Option FSFile) : FSRun :=
  if statRes.isNone || fsExpiredOf opts.staleAfterSeconds statRes now then
    match fsDecodeExisting opts.isBinary (statRes.map (fun f => f.content)) with
    | Except.error e =>
      if statRes.isSome && opts.returnStaleResultOnError then
        fsFinal store cachePath mimeType opts.isBinary opts.rbMeta false
      else ⟨Except.error e, store, false, cachePath⟩
    | Except.ok ex =>
      match gen ex with
      | Except.ok v =>
        fsFinal (fsPut now dir store cacheKey v) cachePath mimeType opts.isBinary opts.rbMeta true
      | Except.error e =>
        if statRes.isSome && opts.returnStaleResultOnError then
          fsFinal store cachePath mimeType opts.isBinary opts.rbMeta true
        else ⟨Except.error e, store, true, cachePath⟩
  else fsFinal store cachePath mimeType opts.isBinary opts.rbMeta false

/-- `FileSystemObjectCache.getAndCache` (src/fileSystemObjectCache.ts lines
43-121).  `fault` injects a non-not-found failure of the `fs.stat` call; the
source maps every stat failure — not-found or otherwise — to `false` via
`.catch((_e) => false)`. -/
def fsGetAndCache (dir : String) (now : Nat) (fault : Bool) (store : FSStore)
    (cacheKey : String) (gen : Option Val → Except String Val) (opts : CacheOptions) : FSRun :=
  fsBody dir now store cacheKey gen opts
    (fsResolveMime dir store cacheKey opts.isBinary opts.mimeType)
    (fsCachePath dir cacheKey (fsResolveMime dir store cacheKey opts.isBinary opts.mimeType))
    (if fault then none
     else fsLookup store
       (fsCachePath dir cacheKey (fsResolveMime dir store cacheKey opts.isBinary opts.mimeType)))

/-! ## Helper lemmas -/

theorem s3Lookup_delete_self (store : S3Store) (k : String) :
    s3Lookup (s3Delete store k) k = none := by
  have hf : List.find? (fun e => e.1 == k) (List.filter (fun e => !(e.1 == k)) store) = none := by
    rw [List.find?_eq_none]
    intro x hx
    have hmem := List.mem_filter.mp hx
    simpa using hmem.2
  simp [s3Lookup, s3Delete, hf]

theorem s3Lookup_delete_ne (store : S3Store) (k k' : String) (h : k' ≠ k) :
    s3Lookup (s3Delete store k) k' = s3Lookup store k' := by
  have hpred : (fun (e : String × S3Entry) =>
      decide ((!(e.1 == k)) = true ∧ (e.1 == k') = true)) = (fun e => e.1 == k') := by
    funext e
    by_cases he : e.1 = k'
    · have : ¬(e.1 = k) := by
        rw [he]
        exact h
      simp [he, this, h]
    · simp [he]
  simp only [s3Lookup, s3Delete]
  rw [List.find?_filter, hpred]

theorem s3Lookup_deleteFile_self (store : S3Store) (k : String) :
    s3Lookup (s3DeleteFile store k) k = none := by
  unfold s3DeleteFile
  by_cases h : (s3Lookup store k).isSome
  · simp [h, s3Lookup_delete_self]
  · simp [h]
    exact Option.not_isSome_iff_eq_none.mp h

theorem s3Lookup_deleteFile_ne (store : S3Store) (k k' : String) (h : k' ≠ k) :
    s3Lookup (s3DeleteFile store k) k' = s3Lookup store k' := by
  unfold s3DeleteFile
  by_cases hs : (s3Lookup store k).isSome
  · simp [hs, s3Lookup_delete_ne store k k' h]
  · simp [hs]

theorem s3DeleteFile_noop (store : S3Store) (k : String) (h : s3Lookup store k = none) :
    s3DeleteFile store k = store := by
  unfold s3DeleteFile
  simp [h]

theorem clearKeys_ne (pfx : Option String) (cacheKey : String) :
    joinPfx pfx (cacheKey ++ (".gz")) ≠ joinPfx pfx (cacheKey ++ (".json.gz")) := by
  intro h
  have hlen := congrArg String.length h
  have h3 : String.length (".gz") = 3 := rfl
  have h8 : String.length (".json.gz") = 8 := rfl
  cases pfx <;> simp only [joinPfx, String.length_append, h3, h8] at hlen <;> omega

theorem s3Finish_withMeta (isBinary rbMeta : Bool) (mt : String) (v : Val)
    (d : List Nat) (m : String) (e : Option String)
    (h : s3Finish isBinary rbMeta mt v = Except.ok (RetVal.withMeta d m e)) :
    e = mimeGetExtension m := by
  unfold s3Finish at h
  split at h
  · injection h with h'
    injection h' with h1 h2 h3
    rw [← h2]
    exact h3.symm
  · injection h with h'
    cases h'

theorem fsFinal_store_eq (st : FSStore) (p mt : String) (isB rbm c : Bool) :
    (fsFinal st p mt isB rbm c).store = st := by
  unfold fsFinal
  split
  · split
    · rfl
    · split <;> rfl
  · split
    · rfl
    · split <;> rfl

theorem fsFinal_cachePath_eq (st : FSStore) (p mt : String) (isB rbm c : Bool) :
    (fsFinal st p mt isB rbm c).cachePath = p := by
  unfold fsFinal
  split
  · split
    · rfl
    · split <;> rfl
  · split
    · rfl
    · split <;> rfl

theorem fsFinal_ok_cases (st : FSStore) (p mt : String) (isB rbm c : Bool) (rv : RetVal)
    (h : (fsFinal st p mt isB rbm c).result = Except.ok rv) :
    ∃ f, fsLookup st p = some f ∧
      ((isB = false ∧ ∃ v, rv = RetVal.plain (Val.jsonV v) ∧ f.content = Content.jsonC v) ∨
       (isB = true ∧ rbm = false ∧ rv = RetVal.plain (Val.binV f.content.toBytes)) ∨
       (isB = true ∧ rbm = true ∧
         rv = RetVal.withMeta f.content.toBytes mt (mimeGetExtension mt))) := by
  unfold fsFinal at h
  split at h
  · rename_i hb
    split at h
    · simp at h
    · rename_i f hlk
      refine ⟨f, hlk, ?_⟩
      split at h
      · rename_i hr
        simp only at h
        injection h with h'
        exact Or.inr (Or.inr ⟨hb, hr, h'.symm⟩)
      · rename_i hr
        simp only at h
        injection h with h'
        exact Or.inr (Or.inl ⟨hb, Bool.eq_false_iff.mpr hr, h'.symm⟩)
  · rename_i hb
    split at h
    · simp at h
    · rename_i f hlk
      refine ⟨f, hlk, ?_⟩
      split at h
      · rename_i v hc
        simp only at h
        injection h with h'
        exact Or.inl ⟨Bool.eq_false_iff.mpr hb, v, h'.symm, hc⟩
      · simp at h

theorem fsBody_ok_shape (dir : String) (now : Nat) (store : FSStore) (cacheKey : String)
    (gen : Option Val → Except String Val) (opts : CacheOptions)
    (mimeType cachePath : String) (statRes : Option FSFile) (rv : RetVal)
    (h : (fsBody dir now store cacheKey gen opts mimeType cachePath statRes).result
      = Except.ok rv) :
    ∃ st c, fsBody dir now store cacheKey gen opts mimeType cachePath statRes
      = fsFinal st cachePath mimeType opts.isBinary opts.rbMeta c := by
  unfold fsBody at h ⊢
  split at h
  · split at h
    · split at h
      · exact ⟨store, false, by simp_all⟩
      · simp only at h
        cases h
    · split at h
      · rename_i v hgen
        exact ⟨fsPut now dir store cacheKey v, true, by simp_all⟩
      · split at h
        · exact ⟨store, true, by simp_all⟩
        · simp only at h
          cases h
  · exact ⟨store, false, by simp_all⟩

theorem fsGetAndCache_ok_shape (dir : String) (now : Nat) (fault : Bool) (store : FSStore)
    (cacheKey : String) (gen : Option Val → Except String Val) (opts : CacheOptions) (rv : RetVal)
    (h : (fsGetAndCache dir now fault store cacheKey gen opts).result = Except.ok rv) :
    ∃ st c, fsGetAndCache dir now fault store cacheKey gen opts
      = fsFinal st
          (fsCachePath dir cacheKey (fsResolveMime dir store cacheKey opts.isBinary opts.mimeType))
          (fsResolveMime dir store cacheKey opts.isBinary opts.mimeType)
          opts.isBinary opts.rbMeta c := by
  unfold fsGetAndCache at h ⊢
  exact fsBody_ok_shape dir now store cacheKey gen opts _ _ _ rv h

/-! ## Claim theorems -/

/-- Claim C1: with `options.staleAfterSeconds = 0`, `getAndCache` must invoke
the producer for every existing entry whose last-modified instant is strictly
before the current instant.  The split-file implementation
(`staleAfterSeconds !== undefined`) does exactly that, but the monolithic
copy in src/cache.ts line 130 tests `staleAfterSeconds` for truthiness, so
`0` never expires anything: at the same input — a fresh-decodable entry
written at instant 0, read at instant 5000 with `staleAfterSeconds = 0` —
the legacy code skips the producer and returns the stale value, contradicting
the claim, the option's own doc comment (only `undefined` means cache
forever) and the repository test \x27Get a fresh object if it is stale\x27. -/
theorem claim1_staleAfterZero_legacy_divergence :
    (s3GetAndCacheLegacy none 5000 false
        [("t.json.gz", ⟨Content.jsonC (Json.num 1), "application/json", 0⟩)] "t"
        (fun _ => Except.ok (Val.jsonV (Json.num 2)))
        { staleAfterSeconds := some 0 }).genCalled = false ∧
    (s3GetAndCacheLegacy none 5000 false
        [("t.json.gz", ⟨Content.jsonC (Json.num 1), "application/json", 0⟩)] "t"
        (fun _ => Except.ok (Val.jsonV (Json.num 2)))
        { staleAfterSeconds := some 0 }).result
      = Except.ok (RetVal.plain (Val.jsonV (Json.num 1))) ∧
    (s3GetAndCache none 5000 false
        [("t.json.gz", ⟨Content.jsonC (Json.num 1), "application/json", 0⟩)] "t"
        (fun _ => Except.ok (Val.jsonV (Json.num 2)))
        { staleAfterSeconds := some 0 }).genCalled = true ∧
    (s3GetAndCache none 5000 false
        [("t.json.gz", ⟨Content.jsonC (Json.num 1), "application/json", 0⟩)] "t"
        (fun _ => Except.ok (Val.jsonV (Json.num 2)))
        { staleAfterSeconds := some 0 }).result
      = Except.ok (RetVal.plain (Val.jsonV (Json.num 2))) :=
  ⟨rfl, rfl, rfl, rfl⟩

/-- Claim C3: a fresh stored entry must be returned without invoking the
producer, including when it decodes to a falsy value.  `S3ObjectCache` tests
the decoded value for truthiness (`!existing || expired`,
src/s3ObjectCache.ts line 106), so a fresh entry storing the JSON value `0`
is treated as a miss: the producer is invoked and its output replaces the
stored `0`.  `FileSystemObjectCache` tests the stat result instead
(src/fileSystemObjectCache.ts line 69) and returns the stored `0` without
invoking the producer, as the claim demands. -/
theorem claim3_falsy_fresh_entry_regenerated :
    (s3GetAndCache none 5000 false
        [("z.json.gz", ⟨Content.jsonC (Json.num 0), "application/json", 0⟩)] "z"
        (fun _ => Except.ok (Val.jsonV (Json.num 1))) {}).genCalled = true ∧
    (s3GetAndCache none 5000 false
        [("z.json.gz", ⟨Content.jsonC (Json.num 0), "application/json", 0⟩)] "z"
        (fun _ => Except.ok (Val.jsonV (Json.num 1))) {}).result
      = Except.ok (RetVal.plain (Val.jsonV (Json.num 1))) ∧
    (fsGetAndCache "d" 5000 false [("d/z.json", ⟨Content.jsonC (Json.num 0), 0⟩)] "z"
        (fun _ => Except.ok (Val.jsonV (Json.num 1))) {}).genCalled = false ∧
    (fsGetAndCache "d" 5000 false [("d/z.json", ⟨Content.jsonC (Json.num 0), 0⟩)] "z"
        (fun _ => Except.ok (Val.jsonV (Json.num 1))) {}).result
      = Except.ok (RetVal.plain (Val.jsonV (Json.num 0))) :=
  ⟨rfl, rfl, rfl, rfl⟩

/-- Claim C4: `putBinary` must terminate with the effect of `put` on binary
data.  `S3ObjectCache.putBinary` (src/s3ObjectCache.ts lines 170-172) and
the `FileSystemObjectCache.putBinary` copy in src/cache.ts (lines 343-345)
return `this.putBinary(cacheKey, data, mimeType)` — a self-call with
unchanged arguments, which never produces a result at any call depth.  The
split-file `FileSystemObjectCache.putBinary` delegates to `put` and does
write the bytes under the binary storage identifier `dir/key`. -/
theorem claim4_putBinary_self_recursion :
    (∀ fuel cacheKey data mimeType, s3PutBinary fuel cacheKey data mimeType = none) ∧
    fsLookup (fsPutBinary 1000 "d" [] "k" [7, 8]) ("d/k")
      = some ⟨Content.binC [7, 8], 1000⟩ := by
  constructor
  · intro fuel
    induction fuel with
    | zero => intro k d m; rfl
    | succ n ih => intro k d m; exact ih k d m
  · rfl

/-- Claim C5: the representation default for the resolved media type must be
`application/json` for structured values.  On a structured miss (no existing
entry, no explicit `options.mimeType`), `S3ObjectCache.getAndCache`
(src/s3ObjectCache.ts line 100) falls back to `application/octet-stream`
regardless of `isBinary`, and stores the generated JSON entry under that
content type — while `put` itself (line 70), per the documented default,
stores the same value as `application/json`. -/
theorem claim5_structured_miss_stored_as_octet_stream :
    s3Lookup (s3GetAndCache none 1000 false [] "k"
        (fun _ => Except.ok (Val.jsonV (Json.num 1))) {}).store ("k.json.gz")
      = some ⟨Content.jsonC (Json.num 1), "application/octet-stream", 1000⟩ ∧
    s3Lookup (s3Put 1000 [] none "k" (Val.jsonV (Json.num 1)) none) ("k.json.gz")
      = some ⟨Content.jsonC (Json.num 1), "application/json", 1000⟩ :=
  ⟨rfl, rfl⟩

/-- Claim C6: `put(key, v)` immediately followed by `getAndCache(key, gen)`
with default options must return `v` without invoking the producer.  For the
falsy JSON value `0` this fails on `S3ObjectCache`: the truthiness test on
the decoded value treats the stored `0` as a miss, invokes the producer and
returns its output `9` instead.  On `FileSystemObjectCache` the round-trip
behaves as claimed. -/
theorem claim6_roundtrip_fails_on_falsy :
    (s3GetAndCache none 1 false (s3Put 0 [] none "k" (Val.jsonV (Json.num 0)) none) "k"
        (fun _ => Except.ok (Val.jsonV (Json.num 9))) {}).genCalled = true ∧
    (s3GetAndCache none 1 false (s3Put 0 [] none "k" (Val.jsonV (Json.num 0)) none) "k"
        (fun _ => Except.ok (Val.jsonV (Json.num 9))) {}).result
      = Except.ok (RetVal.plain (Val.jsonV (Json.num 9))) ∧
    (fsGetAndCache "d" 1 false (fsPut 0 "d" [] "k" (Val.jsonV (Json.num 0))) "k"
        (fun _ => Except.ok (Val.jsonV (Json.num 9))) {}).genCalled = false ∧
    (fsGetAndCache "d" 1 false (fsPut 0 "d" [] "k" (Val.jsonV (Json.num 0))) "k"
        (fun _ => Except.ok (Val.jsonV (Json.num 9))) {}).result
      = Except.ok (RetVal.plain (Val.jsonV (Json.num 0))) :=
  ⟨rfl, rfl, rfl, rfl⟩

/-- Claim C7 counterexample: the claim states that a non-not-found storage
read fault during lookup propagates to the caller as a fatal error.  In the
code, `.catch(() => undefined)` (src/s3ObjectCache.ts lines 92-95) swallows
every lookup failure: with a read fault injected over a bucket that does
contain a fresh entry, the call succeeds with the producer's value and the
producer is invoked — no error reaches the caller. -/
theorem claim7_read_fault_swallowed_cex :
    (s3GetAndCache none 0 true
        [("t.json.gz", ⟨Content.jsonC (Json.num 1), "application/json", 0⟩)] "t"
        (fun _ => Except.ok (Val.jsonV (Json.num 7))) {}).result
      = Except.ok (RetVal.plain (Val.jsonV (Json.num 7))) ∧
    (s3GetAndCache none 0 true
        [("t.json.gz", ⟨Content.jsonC (Json.num 1), "application/json", 0⟩)] "t"
        (fun _ => Except.ok (Val.jsonV (Json.num 7))) {}).genCalled = true :=
  ⟨rfl, rfl⟩

/-- Claim C10 counterexample: the claim states that every structured
`FileSystemObjectCache.getAndCache` return equals the JSON round-trip of the
value persisted by the call.  With an explicit `mimeType` of `text/plain`,
the resolved `cachePath` is `d/k.txt` while `put` writes to `d/k.json`
(src/fileSystemObjectCache.ts lines 59-62 versus 30-35): after regeneration
persists `7`, the final read-back re-reads `d/k.txt` and returns the old
value `5` — the returned value differs from the value persisted. -/
theorem claim10_readback_path_mismatch_cex :
    (fsGetAndCache "d" 10000 false [("d/k.txt", ⟨Content.jsonC (Json.num 5), 0⟩)] "k"
        (fun _ => Except.ok (Val.jsonV (Json.num 7)))
        { staleAfterSeconds := some 0, mimeType := some ("text/plain") }).result
      = Except.ok (RetVal.plain (Val.jsonV (Json.num 5))) ∧
    fsLookup (fsGetAndCache "d" 10000 false [("d/k.txt", ⟨Content.jsonC (Json.num 5), 0⟩)] "k"
        (fun _ => Except.ok (Val.jsonV (Json.num 7)))
        { staleAfterSeconds := some 0, mimeType := some ("text/plain") }).store ("d/k.json")
      = some ⟨Content.jsonC (Json.num 7), 10000⟩ ∧
    Json.num 5 ≠ Json.num 7 :=
  ⟨rfl, rfl, fun h => by injection h with h'; exact absurd h' (by decide)⟩

theorem fsFinal_genCalled_eq (st : FSStore) (p mt : String) (isB rbm c : Bool) :
    (fsFinal st p mt isB rbm c).genCalled = c := by
  unfold fsFinal
  split
  · split
    · rfl
    · split <;> rfl
  · split
    · rfl
    · split <;> rfl

/-- Claim C7 (amended): during lookup, every backend read failure — the
backend's own not-found outcome and any other storage fault alike — is caught
and treated as an absent entry: an S3 `getAndCache` call under an injected
read fault settles and invokes the producer exactly as a faultless call over
an empty bucket does, and a filesystem call under a stat fault always
proceeds to invoke the producer; no storage read fault propagates from the
lookup phase. -/
theorem claim7_fault_treated_as_absent :
    (∀ pfx now store cacheKey gen opts,
      (s3GetAndCache pfx now true store cacheKey gen opts).result
        = (s3GetAndCache pfx now false [] cacheKey gen opts).result ∧
      (s3GetAndCache pfx now true store cacheKey gen opts).genCalled
        = (s3GetAndCache pfx now false [] cacheKey gen opts).genCalled) ∧
    (∀ dir now store cacheKey gen opts,
      (fsGetAndCache dir now true store cacheKey gen opts).genCalled = true) := by
  constructor
  · intro pfx now store cacheKey gen opts
    unfold s3GetAndCache
    have hemp : s3Lookup ([] : S3Store) (joinPfx pfx (s3FileName opts.isBinary cacheKey))
        = none := rfl
    rw [hemp]
    cases hg : gen none <;>
      simp [s3Body, s3DecodeExisting, s3ExpiredOf, hg]
  · intro dir now store cacheKey gen opts
    unfold fsGetAndCache fsBody
    cases hg : gen none <;>
      simp [fsDecodeExisting, hg, fsFinal_genCalled_eq]

/-- Claim C8: the claim requires that after `clearCache` completes, a read of
the key yields absence.  The source drops both `deleteFile` promises
(src/s3ObjectCache.ts lines 50-51, no `await`), so at the instant the
`clearCache` promise resolves no deletion has been issued and the entry still
reads back present — the first conjunct evaluates the code at that failing
input, contradicting the claim and the repository's own tests (which await
`clearCache` and then expect absence).  The quantified conjuncts prove the
claim's content of the eventual state, once the dropped deletions have
completed: the call itself never mutates the observable state (so clearing a
key with no entries is a no-op, not an error), both suffix identifiers read
absent eventually, and the eventual deletion is idempotent. -/
theorem claim8_clear_unawaited_deletions :
    s3Lookup (s3ClearCache none
        [("t.json.gz", ⟨Content.jsonC (Json.num 1), "application/json", 0⟩)] "t").storeAtResolve
        ("t.json.gz")
      = some ⟨Content.jsonC (Json.num 1), "application/json", 0⟩ ∧
    (∀ pfx store cacheKey,
      (s3ClearCache pfx store cacheKey).storeAtResolve = store ∧
      s3Lookup (s3ClearCache pfx store cacheKey).storeEventual
        (joinPfx pfx (cacheKey ++ (".gz"))) = none ∧
      s3Lookup (s3ClearCache pfx store cacheKey).storeEventual
        (joinPfx pfx (cacheKey ++ (".json.gz"))) = none ∧
      (s3ClearCache pfx (s3ClearCache pfx store cacheKey).storeEventual cacheKey).storeEventual
        = (s3ClearCache pfx store cacheKey).storeEventual) := by
  refine ⟨rfl, ?_⟩
  intro pfx store cacheKey
  have hne := clearKeys_ne pfx cacheKey
  have ha : s3Lookup (s3ClearCache pfx store cacheKey).storeEventual
      (joinPfx pfx (cacheKey ++ (".gz"))) = none := by
    unfold s3ClearCache
    rw [s3Lookup_deleteFile_ne _ _ _ hne]
    exact s3Lookup_deleteFile_self _ _
  have hb : s3Lookup (s3ClearCache pfx store cacheKey).storeEventual
      (joinPfx pfx (cacheKey ++ (".json.gz"))) = none := by
    unfold s3ClearCache
    exact s3Lookup_deleteFile_self _ _
  refine ⟨rfl, ha, hb, ?_⟩
  show s3DeleteFile (s3DeleteFile (s3ClearCache pfx store cacheKey).storeEventual
      (joinPfx pfx (cacheKey ++ (".gz")))) (joinPfx pfx (cacheKey ++ (".json.gz")))
    = (s3ClearCache pfx store cacheKey).storeEventual
  rw [s3DeleteFile_noop _ _ ha, s3DeleteFile_noop _ _ hb]


theorem s3Body_withMeta (pfx : Option String) (now : Nat) (store : S3Store) (cacheKey : String)
    (gen : Option Val → Except String Val) (opts : CacheOptions)
    (ec : Option S3Entry) (expired : Bool) (d : List Nat) (m : String) (e : Option String)
    (h : (s3Body pfx now store cacheKey gen opts ec expired).result
      = Except.ok (RetVal.withMeta d m e)) :
    e = mimeGetExtension m := by
  unfold s3Body at h
  split at h
  · simp at h
  · split at h
    · simp only at h
      exact s3Finish_withMeta _ _ _ _ _ _ _ h
    · simp at h
  · split at h
    · split at h
      · simp only at h
        exact s3Finish_withMeta _ _ _ _ _ _ _ h
      · split at h
        · simp only at h
          exact s3Finish_withMeta _ _ _ _ _ _ _ h
        · simp at h
    · simp only at h
      exact s3Finish_withMeta _ _ _ _ _ _ _ h

/-- Claim C9: the file-extension hint in every `BinaryWithMetadata` envelope
either backend produces is `mime.getExtension` applied to the envelope's own
media type — a pure table lookup, so the same media type always yields the
same extension, across calls and across backends — and
`application/octet-stream` maps to no extension (null). -/
theorem claim9_mime_extension_deterministic :
    (∀ pfx now fault store cacheKey gen sas rsoe mT d m e,
      (s3GetAndCache pfx now fault store cacheKey gen
          ⟨sas, rsoe, true, mT, true⟩).result = Except.ok (RetVal.withMeta d m e) →
      e = mimeGetExtension m) ∧
    (∀ dir now fault store cacheKey gen sas rsoe mT d m e,
      (fsGetAndCache dir now fault store cacheKey gen
          ⟨sas, rsoe, true, mT, true⟩).result = Except.ok (RetVal.withMeta d m e) →
      e = mimeGetExtension m) ∧
    mimeGetExtension ("application/octet-stream") = none := by
  refine ⟨?_, ?_, rfl⟩
  · intro pfx now fault store cacheKey gen sas rsoe mT d m e h
    unfold s3GetAndCache at h
    exact s3Body_withMeta _ _ _ _ _ _ _ _ _ _ _ h
  · intro dir now fault store cacheKey gen sas rsoe mT d m e h
    obtain ⟨st, c, heq⟩ := fsGetAndCache_ok_shape dir now fault store cacheKey gen
      ⟨sas, rsoe, true, mT, true⟩ (RetVal.withMeta d m e) h
    rw [heq] at h
    obtain ⟨f, hlk, hcase⟩ := fsFinal_ok_cases _ _ _ _ _ _ _ h
    rcases hcase with ⟨hfb, _⟩ | ⟨_, hrb, _⟩ | ⟨_, _, hrv⟩
    · exact Bool.noConfusion hfb
    · exact Bool.noConfusion hrb
    · injection hrv with h1 h2 h3
      rw [h2]
      exact h3

/-- Witness for C9 at a concrete input: a binary metadata read of a stored
PNG resolves the extension hint `png` for the media type `image/png`. -/
theorem claim9_mime_extension_witness :
    some ("png") = mimeGetExtension ("image/png") :=
  claim9_mime_extension_deterministic.1 none 0 false
    [("k.gz", ⟨Content.binC [1], "image/png", 0⟩)] "k" (fun _ => Except.error ("no"))
    none false none [1] "image/png" (some ("png")) rfl

/-- Claim C10 (amended): every successful return of
`FileSystemObjectCache.getAndCache` is produced by re-reading the file at the
resolved `cachePath` from the backend after any write — never by returning
the generator's in-memory value: a structured result is the parse of the file
stored at `cachePath` in the final state, and a binary result (raw or
metadata-wrapped) carries that file's bytes.  This equals the value persisted
by the call's own write only when the resolved media type makes `cachePath`
coincide with the path `put` writes (as under default options); with an
explicit non-default `mimeType` the re-read can hit a different path and
return a value other than the one just persisted. -/
theorem claim10_readback_amended :
    (∀ dir now fault store cacheKey gen sas rsoe mT rbm rv r,
      r = fsGetAndCache dir now fault store cacheKey gen ⟨sas, rsoe, false, mT, rbm⟩ →
      r.result = Except.ok rv →
      ∃ v f, rv = RetVal.plain (Val.jsonV v) ∧ fsLookup r.store r.cachePath = some f ∧
        f.content = Content.jsonC v) ∧
    (∀ dir now fault store cacheKey gen sas rsoe mT rv r,
      r = fsGetAndCache dir now fault store cacheKey gen ⟨sas, rsoe, true, mT, false⟩ →
      r.result = Except.ok rv →
      ∃ f, fsLookup r.store r.cachePath = some f ∧
        rv = RetVal.plain (Val.binV f.content.toBytes)) ∧
    (∀ dir now fault store cacheKey gen sas rsoe mT rv r,
      r = fsGetAndCache dir now fault store cacheKey gen ⟨sas, rsoe, true, mT, true⟩ →
      r.result = Except.ok rv →
      ∃ f m, fsLookup r.store r.cachePath = some f ∧
        rv = RetVal.withMeta f.content.toBytes m (mimeGetExtension m)) := by
  refine ⟨?_, ?_, ?_⟩
  · intro dir now fault store cacheKey gen sas rsoe mT rbm rv r hr h
    subst hr
    obtain ⟨st, c, heq⟩ := fsGetAndCache_ok_shape dir now fault store cacheKey gen
      ⟨sas, rsoe, false, mT, rbm⟩ rv h
    rw [heq] at h ⊢
    obtain ⟨f, hlk, hcase⟩ := fsFinal_ok_cases _ _ _ _ _ _ _ h
    rcases hcase with ⟨_, v, hrv, hc⟩ | ⟨htb, _⟩ | ⟨htb, _⟩
    · refine ⟨v, f, hrv, ?_, hc⟩
      rw [fsFinal_store_eq, fsFinal_cachePath_eq]
      exact hlk
    · exact Bool.noConfusion htb
    · exact Bool.noConfusion htb
  · intro dir now fault store cacheKey gen sas rsoe mT rv r hr h
    subst hr
    obtain ⟨st, c, heq⟩ := fsGetAndCache_ok_shape dir now fault store cacheKey gen
      ⟨sas, rsoe, true, mT, false⟩ rv h
    rw [heq] at h ⊢
    obtain ⟨f, hlk, hcase⟩ := fsFinal_ok_cases _ _ _ _ _ _ _ h
    rcases hcase with ⟨hfb, _⟩ | ⟨_, _, hrv⟩ | ⟨_, hrb, _⟩
    · exact Bool.noConfusion hfb
    · refine ⟨f, ?_, hrv⟩
      rw [fsFinal_store_eq, fsFinal_cachePath_eq]
      exact hlk
    · exact Bool.noConfusion hrb.symm
  · intro dir now fault store cacheKey gen sas rsoe mT rv r hr h
    subst hr
    obtain ⟨st, c, heq⟩ := fsGetAndCache_ok_shape dir now fault store cacheKey gen
      ⟨sas, rsoe, true, mT, true⟩ rv h
    rw [heq] at h ⊢
    obtain ⟨f, hlk, hcase⟩ := fsFinal_ok_cases _ _ _ _ _ _ _ h
    rcases hcase with ⟨hfb, _⟩ | ⟨_, hrb, _⟩ | ⟨_, _, hrv⟩
    · exact Bool.noConfusion hfb
    · exact Bool.noConfusion hrb
    · refine ⟨f, fsResolveMime dir store cacheKey true mT, ?_, hrv⟩
      rw [fsFinal_store_eq, fsFinal_cachePath_eq]
      exact hlk

/-- Witness for C10 (amended) at a concrete input: a default-options read of
a fresh structured entry returns the parse of the file at the resolved
`cachePath` in the final state. -/
theorem claim10_readback_amended_witness :
    ∃ v f, RetVal.plain (Val.jsonV (Json.num 3)) = RetVal.plain (Val.jsonV v) ∧
      fsLookup (fsGetAndCache "d" 0 false [("d/k.json", ⟨Content.jsonC (Json.num 3), 0⟩)] "k"
          (fun _ => Except.error ("no")) ⟨none, false, false, none, false⟩).store
        (fsGetAndCache "d" 0 false [("d/k.json", ⟨Content.jsonC (Json.num 3), 0⟩)] "k"
          (fun _ => Except.error ("no")) ⟨none, false, false, none, false⟩).cachePath
        = some f ∧
      f.content = Content.jsonC v :=
  claim10_readback_amended.1 "d" 0 false [("d/k.json", ⟨Content.jsonC (Json.num 3), 0⟩)] "k"
    (fun _ => Except.error ("no")) none false none false
    (RetVal.plain (Val.jsonV (Json.num 3))) _ rfl rfl

theorem s3Body_none_genError (pfx : Option String) (now : Nat) (store : S3Store)
    (cacheKey : String) (gen : Option Val → Except String Val) (opts : CacheOptions)
    (err : String) (expired : Bool) (h2 : gen none = Except.error err) :
    (s3Body pfx now store cacheKey gen opts none expired).result = Except.error err ∧
    (s3Body pfx now store cacheKey gen opts none expired).store = store := by
  unfold s3Body
  simp [s3DecodeExisting, h2]

theorem s3Body_swallow (pfx : Option String) (now : Nat) (store : S3Store) (cacheKey : String)
    (gen : Option Val → Except String Val) (err : String) (sas : Option Nat)
    (mT : Option String) (rbm : Bool) (v : Json) (ct : String) (lm : Nat) (expired : Bool)
    (h2 : gen (some (Val.jsonV v)) = Except.error err)
    (htrig : (!(Json.truthy v) || expired) = true) :
    (s3Body pfx now store cacheKey gen ⟨sas, true, false, mT, rbm⟩
        (some ⟨Content.jsonC v, ct, lm⟩) expired).result
      = Except.ok (RetVal.plain (Val.jsonV v)) ∧
    (s3Body pfx now store cacheKey gen ⟨sas, true, false, mT, rbm⟩
        (some ⟨Content.jsonC v, ct, lm⟩) expired).store = store ∧
    (s3Body pfx now store cacheKey gen ⟨sas, true, false, mT, rbm⟩
        (some ⟨Content.jsonC v, ct, lm⟩) expired).genCalled = true := by
  unfold s3Body
  simp [s3DecodeExisting, Val.truthy, htrig, h2, s3Finish]

theorem s3Body_rethrow (pfx : Option String) (now : Nat) (store : S3Store) (cacheKey : String)
    (gen : Option Val → Except String Val) (err : String) (sas : Option Nat)
    (mT : Option String) (rbm : Bool) (v : Json) (ct : String) (lm : Nat) (expired : Bool)
    (h2 : gen (some (Val.jsonV v)) = Except.error err)
    (htrig : (!(Json.truthy v) || expired) = true) :
    (s3Body pfx now store cacheKey gen ⟨sas, false, false, mT, rbm⟩
        (some ⟨Content.jsonC v, ct, lm⟩) expired).result = Except.error err ∧
    (s3Body pfx now store cacheKey gen ⟨sas, false, false, mT, rbm⟩
        (some ⟨Content.jsonC v, ct, lm⟩) expired).store = store := by
  unfold s3Body
  simp [s3DecodeExisting, Val.truthy, htrig, h2]

theorem fsBody_none_genError (dir : String) (now : Nat) (store : FSStore) (cacheKey : String)
    (gen : Option Val → Except String Val) (opts : CacheOptions) (m p : String) (err : String)
    (h2 : gen none = Except.error err) :
    (fsBody dir now store cacheKey gen opts m p none).result = Except.error err ∧
    (fsBody dir now store cacheKey gen opts m p none).store = store := by
  unfold fsBody
  simp [fsDecodeExisting, h2]

theorem fsBody_swallow (dir : String) (now : Nat) (store : FSStore) (cacheKey : String)
    (gen : Option Val → Except String Val) (err : String) (sas : Option Nat) (rbm : Bool)
    (v : Json) (lm : Nat) (m p : String)
    (hlk : fsLookup store p = some ⟨Content.jsonC v, lm⟩)
    (h2 : gen (some (Val.jsonV v)) = Except.error err)
    (hexp : staleExpired sas lm now = true) :
    (fsBody dir now store cacheKey gen ⟨sas, true, false, none, rbm⟩ m p
        (some ⟨Content.jsonC v, lm⟩)).result = Except.ok (RetVal.plain (Val.jsonV v)) ∧
    (fsBody dir now store cacheKey gen ⟨sas, true, false, none, rbm⟩ m p
        (some ⟨Content.jsonC v, lm⟩)).store = store ∧
    (fsBody dir now store cacheKey gen ⟨sas, true, false, none, rbm⟩ m p
        (some ⟨Content.jsonC v, lm⟩)).genCalled = true := by
  unfold fsBody
  simp [fsExpiredOf, fsDecodeExisting, h2, hexp, fsFinal, hlk]

theorem fsBody_rethrow (dir : String) (now : Nat) (store : FSStore) (cacheKey : String)
    (gen : Option Val → Except String Val) (err : String) (sas : Option Nat) (rbm : Bool)
    (v : Json) (lm : Nat) (m p : String)
    (h2 : gen (some (Val.jsonV v)) = Except.error err)
    (hexp : staleExpired sas lm now = true) :
    (fsBody dir now store cacheKey gen ⟨sas, false, false, none, rbm⟩ m p
        (some ⟨Content.jsonC v, lm⟩)).result = Except.error err ∧
    (fsBody dir now store cacheKey gen ⟨sas, false, false, none, rbm⟩ m p
        (some ⟨Content.jsonC v, lm⟩)).store = store := by
  unfold fsBody
  simp [fsExpiredOf, fsDecodeExisting, h2, hexp]

/-- Claim C2: when the producer fails, (a) with no prior entry the producer's
error propagates unchanged and nothing is written (the backend state is
unchanged); (b) with a prior entry and `returnStaleResultOnError = true` the
error is suppressed and the existing stale value is returned, the prior
entry left untouched; (c) with a prior entry and `returnStaleResultOnError`
false the error propagates unchanged and the prior entry is left untouched.
Stated for `S3ObjectCache.getAndCache` (conjuncts one to three, arbitrary
options in the no-entry case, structured entries in the others, with the
regeneration guard discharged by falsiness or staleness) and for
`FileSystemObjectCache.getAndCache` (conjuncts four to six, structured
default-mime calls, staleness-triggered regeneration). -/
theorem claim2_producer_failure_paths :
    (∀ pfx now store cacheKey gen err sas rsoe isB mT rbm,
      s3Lookup store (joinPfx pfx (s3FileName isB cacheKey)) = none →
      gen none = Except.error err →
      (s3GetAndCache pfx now false store cacheKey gen ⟨sas, rsoe, isB, mT, rbm⟩).result
        = Except.error err ∧
      (s3GetAndCache pfx now false store cacheKey gen ⟨sas, rsoe, isB, mT, rbm⟩).store
        = store) ∧
    (∀ pfx now store cacheKey gen err sas mT rbm v ct lm,
      s3Lookup store (joinPfx pfx (s3FileName false cacheKey)) = some ⟨Content.jsonC v, ct, lm⟩ →
      gen (some (Val.jsonV v)) = Except.error err →
      (!(Json.truthy v) || staleExpired sas lm now) = true →
      (s3GetAndCache pfx now false store cacheKey gen ⟨sas, true, false, mT, rbm⟩).result
        = Except.ok (RetVal.plain (Val.jsonV v)) ∧
      (s3GetAndCache pfx now false store cacheKey gen ⟨sas, true, false, mT, rbm⟩).store
        = store ∧
      (s3GetAndCache pfx now false store cacheKey gen ⟨sas, true, false, mT, rbm⟩).genCalled
        = true) ∧
    (∀ pfx now store cacheKey gen err sas mT rbm v ct lm,
      s3Lookup store (joinPfx pfx (s3FileName false cacheKey)) = some ⟨Content.jsonC v, ct, lm⟩ →
      gen (some (Val.jsonV v)) = Except.error err →
      (!(Json.truthy v) || staleExpired sas lm now) = true →
      (s3GetAndCache pfx now false store cacheKey gen ⟨sas, false, false, mT, rbm⟩).result
        = Except.error err ∧
      (s3GetAndCache pfx now false store cacheKey gen ⟨sas, false, false, mT, rbm⟩).store
        = store) ∧
    (∀ dir now store cacheKey gen err sas rsoe rbm,
      fsLookup store (fsCachePath dir cacheKey ("application/json")) = none →
      gen none = Except.error err →
      (fsGetAndCache dir now false store cacheKey gen ⟨sas, rsoe, false, none, rbm⟩).result
        = Except.error err ∧
      (fsGetAndCache dir now false store cacheKey gen ⟨sas, rsoe, false, none, rbm⟩).store
        = store) ∧
    (∀ dir now store cacheKey gen err sas rbm v lm,
      fsLookup store (fsCachePath dir cacheKey ("application/json"))
        = some ⟨Content.jsonC v, lm⟩ →
      gen (some (Val.jsonV v)) = Except.error err →
      staleExpired sas lm now = true →
      (fsGetAndCache dir now false store cacheKey gen ⟨sas, true, false, none, rbm⟩).result
        = Except.ok (RetVal.plain (Val.jsonV v)) ∧
      (fsGetAndCache dir now false store cacheKey gen ⟨sas, true, false, none, rbm⟩).store
        = store ∧
      (fsGetAndCache dir now false store cacheKey gen ⟨sas, true, false, none, rbm⟩).genCalled
        = true) ∧
    (∀ dir now store cacheKey gen err sas rbm v lm,
      fsLookup store (fsCachePath dir cacheKey ("application/json"))
        = some ⟨Content.jsonC v, lm⟩ →
      gen (some (Val.jsonV v)) = Except.error err →
      staleExpired sas lm now = true →
      (fsGetAndCache dir now false store cacheKey gen ⟨sas, false, false, none, rbm⟩).result
        = Except.error err ∧
      (fsGetAndCache dir now false store cacheKey gen ⟨sas, false, false, none, rbm⟩).store
        = store) := by
  refine ⟨?_, ?_, ?_, ?_, ?_, ?_⟩
  · intro pfx now store cacheKey gen err sas rsoe isB mT rbm h1 h2
    unfold s3GetAndCache
    dsimp only
    rw [h1]
    exact s3Body_none_genError pfx now store cacheKey gen ⟨sas, rsoe, isB, mT, rbm⟩ err _ h2
  · intro pfx now store cacheKey gen err sas mT rbm v ct lm h1 h2 htrig
    unfold s3GetAndCache
    dsimp only
    rw [h1]
    exact s3Body_swallow pfx now store cacheKey gen err sas mT rbm v ct lm _ h2 htrig
  · intro pfx now store cacheKey gen err sas mT rbm v ct lm h1 h2 htrig
    unfold s3GetAndCache
    dsimp only
    rw [h1]
    exact s3Body_rethrow pfx now store cacheKey gen err sas mT rbm v ct lm _ h2 htrig
  · intro dir now store cacheKey gen err sas rsoe rbm h1 h2
    unfold fsGetAndCache
    dsimp only
    rw [show fsResolveMime dir store cacheKey false none = "application/json" from rfl, h1]
    exact fsBody_none_genError dir now store cacheKey gen ⟨sas, rsoe, false, none, rbm⟩ _ _ err h2
  · intro dir now store cacheKey gen err sas rbm v lm h1 h2 hexp
    unfold fsGetAndCache
    dsimp only
    rw [show fsResolveMime dir store cacheKey false none = "application/json" from rfl, h1]
    exact fsBody_swallow dir now store cacheKey gen err sas rbm v lm _ _ h1 h2 hexp
  · intro dir now store cacheKey gen err sas rbm v lm h1 h2 hexp
    unfold fsGetAndCache
    dsimp only
    rw [show fsResolveMime dir store cacheKey false none = "application/json" from rfl, h1]
    exact fsBody_rethrow dir now store cacheKey gen err sas rbm v lm _ _ h2 hexp

/-- Witness for C2 at a concrete input: a first-generation failure over an
empty bucket propagates the producer's error and leaves the bucket empty. -/
theorem claim2_producer_failure_witness :
    (s3GetAndCache none 0 false ([] : S3Store) "k"
        (fun _ => Except.error ("boom")) ⟨none, false, false, none, false⟩).result
      = Except.error ("boom") ∧
    (s3GetAndCache none 0 false ([] : S3Store) "k"
        (fun _ => Except.error ("boom")) ⟨none, false, false, none, false⟩).store
      = ([] : S3Store) :=
  claim2_producer_failure_paths.1 none 0 ([] : S3Store) "k"
    (fun _ => Except.error ("boom")) "boom" none false false none false rfl rfl
